import Mathlib

/-!
# chitchat: the TCP server of `server.go`

A shallow embedding of `server.go`.  Every Go function becomes a Lean function
from the state it reads (the `server` record, the connection registry, the
handoff queue) and the answers of its environment (the result of a socket
close, the frames a reader delivers, the moment a cancellation is observed) to
an `Outcome`: the value returned, the state left behind and the trace of the
actions performed, in program order.  A call that can never proceed (a `Lock`
on a held mutex nobody releases, a send on a nil channel) ends in
`Outcome.blocked`; a run-time failure (nil dereference, closing a closed
channel) ends in `Outcome.panicked`.
-/

namespace Chitchat

/-! ## Data model -/

/-- Go `error` value, identified by its message. -/
structure GoError where
  msg : String
deriving DecidableEq, Repr

/-- Errsocket: an error together with the address it originates from. -/
structure Errsocket where
  err : GoError
  addr : String
deriving DecidableEq, Repr

/-- A `context.CancelFunc`, identified by the scope it cancels. -/
structure CancelFunc where
  scope : Nat
deriving DecidableEq, Repr

/-- A `net.Conn`, identified by the strings of its two addresses. -/
structure Conn where
  localAddr : String
  remoteAddr : String
deriving DecidableEq, Repr

/-- A `net.Listener`, identified by the address it is bound to. -/
structure Listener where
  addr : String
deriving DecidableEq, Repr

/-- State of a Go channel variable: the nil channel, a channel made and not
yet closed, or a closed channel. -/
inductive Chan where
  | nil
  | live
  | closed
deriving DecidableEq, Repr

/-- A frame: the bytes handed from the reader to the callback. -/
abbrev Frame := List Nat

/-- A function value of type `ServerReadFunc`, identified by its code address. -/
abbrev FuncPtr := Nat

/-- An `interface{}` value, identified by a token. -/
abbrev Any := Nat

/-- The `sync.Map` of the server: keys are remote addresses, values are the
cancel functions stored by the accept loop. -/
abbrev SyncMap := List (String × CancelFunc)

/-- Method `Load` of `sync.Map`. -/
def SyncMap.Load (m : SyncMap) (key : String) : Option CancelFunc :=
  (m.find? (fun e => e.1 == key)).map Prod.snd

/-- Method `Delete` of `sync.Map`. -/
def SyncMap.Delete (m : SyncMap) (key : String) : SyncMap :=
  m.filter (fun e => !(e.1 == key))

/-- Method `Store` of `sync.Map`: the value replaces the one stored under the same key. -/
def SyncMap.Store (m : SyncMap) (key : String) (value : CancelFunc) : SyncMap :=
  (key, value) :: m.Delete key

/-- The keys visited by `sync.Map.Range`. -/
def SyncMap.keys (m : SyncMap) : List String :=
  m.map Prod.fst

/-- The `server` struct.  The embedded `eDer` contributes `eU`, `closed`, `mu`
and `pmu`.  A pointer to a mutex is `none` when nil and `some held` otherwise;
`eDerfunc` records whether the function value is set. -/
structure server where
  ipaddr : String
  readDDL : Int
  writeDDL : Int
  delimiter : Nat
  readfunc : Option FuncPtr
  remoteMap : SyncMap
  eU : Chan
  closed : Bool
  mu : Option Bool
  pmu : Option Bool
  eDerfunc : Bool
  l : Option Listener
  cancelfunc : Option CancelFunc
  currentConn : Option Conn
  additional : Any
deriving DecidableEq, Repr

/-- The `hConnerServer` struct.  `mu` is a copy of the pointer to the server
mutex: only whether it is nil is read from the copy. -/
structure hConnerServer where
  conn : Conn
  d : Nat
  mu : Option Bool
  readfunc : Option FuncPtr
deriving DecidableEq, Repr

/-- The actions a function of `server.go` performs, as recorded in traces. -/
inductive Act where
  | lock
  | unlock
  | netListen (addr : String)
  | withCancel (f : CancelFunc)
  | goErrDiversion
  | goHandleListen
  | goHandleConnServer (h : hConnerServer)
  | goRead (c : Conn)
  | listenerClose (l : Listener)
  | setClosed
  | closeEU
  | sendEU (e : Errsocket)
  | cancel (f : CancelFunc)
  | setReadDeadline (c : Conn)
  | setWriteDeadline (c : Conn)
  | connClose (c : Conn)
  | recvHandoff (got : Option Frame)
  | call (frame : Frame) (handle : server)
  | sendEC (e : Errsocket)
  | closeEC
deriving DecidableEq, Repr

/-- How a call ends: it returns `v`, it blocks forever, or it panics.  In each
case `st` is the state left behind and `tr` the actions performed so far. -/
inductive Outcome (σ α : Type) where
  | returned (v : α) (st : σ) (tr : List Act)
  | blocked (st : σ) (tr : List Act)
  | panicked (st : σ) (tr : List Act)
deriving DecidableEq, Repr

/-- The trace of an outcome. -/
def Outcome.trace {σ α : Type} : Outcome σ α → List Act
  | .returned _ _ tr => tr
  | .blocked _ tr => tr
  | .panicked _ tr => tr

/-- The state an outcome leaves behind. -/
def Outcome.state {σ α : Type} : Outcome σ α → σ
  | .returned _ st _ => st
  | .blocked st _ => st
  | .panicked st _ => st

/-- Whether the call returned. -/
def Outcome.isReturned {σ α : Type} : Outcome σ α → Bool
  | .returned _ _ _ => true
  | _ => false

/-! ## Construction and `Listen` -/

/-- Function `NewServer`. -/
def NewServer (ipaddrsocket : String) (delim : Nat) (readfunc : Option FuncPtr)
    (additional : Any) : server :=
  { ipaddr := ipaddrsocket
    readDDL := 0
    writeDDL := 0
    delimiter := delim
    eU := Chan.live
    closed := false
    mu := some false
    pmu := none
    remoteMap := []
    readfunc := readfunc
    additional := additional
    eDerfunc := true
    l := none
    cancelfunc := none
    currentConn := none }

/-- What the environment answers to `Listen`: the result of
`net.Listen("tcp", t.ipaddr)` and the cancel function that
`context.WithCancel` returns. -/
structure ListenEnv where
  bind : Except GoError Listener
  cfunc : CancelFunc

/-- Method `Listen` of `server`. -/
def Listen (env : ListenEnv) (t : server) : Outcome server (Option GoError) :=
  match t.readfunc with
  | none => .returned (some ⟨"read function is nil"⟩) t []
  | some _ =>
    match env.bind with
    | .error err => .returned (some err) t [.netListen t.ipaddr]
    | .ok listener =>
      let t1 := { t with cancelfunc := some env.cfunc }
      let t2 := { t1 with l := some listener }
      if t.eDerfunc then
        .returned none t2
          [.netListen t.ipaddr, .withCancel env.cfunc, .goErrDiversion, .goHandleListen]
      else
        .panicked t2 [.netListen t.ipaddr, .withCancel env.cfunc]

/-- Method `SetDeadLine` of `server`. -/
def SetDeadLine (t : server) (rDDL wDDL : Int) : server :=
  { t with readDDL := rDDL, writeDDL := wDDL }

/-! ## `Cut`, `CloseRemote`, `Close`, `RangeRemoteAddr` -/

/-- Method `Cut` of `server`.  `closeErr` is what `t.l.Close()` answers. -/
def Cut (closeErr : Option GoError) (t : server) : Outcome server (Option GoError) :=
  match t.mu with
  | none => .panicked t []
  | some true => .blocked t []
  | some false =>
    let t1 := { t with mu := some true }
    match t.l with
    | none => .panicked t1 [.lock]
    | some lst =>
      match closeErr with
      | some err => .returned (some err) t1 [.lock, .listenerClose lst]
      | none =>
        let t2 := { t1 with closed := true }
        match t.eU with
        | .nil => .panicked t2 [.lock, .listenerClose lst, .setClosed]
        | .closed => .panicked t2 [.lock, .listenerClose lst, .setClosed]
        | .live =>
          let t3 := { t2 with eU := Chan.closed }
          let t4 := { t3 with mu := some false }
          match t.cancelfunc with
          | none =>
            .panicked t4 [.lock, .listenerClose lst, .setClosed, .closeEU, .unlock]
          | some cf =>
            .returned none t4
              [.lock, .listenerClose lst, .setClosed, .closeEU, .unlock, .cancel cf]

/-- Method `CloseRemote` of `server`. -/
def CloseRemote (t : server) (remoteAddr : String) : Outcome server (Option GoError) :=
  match t.remoteMap.Load remoteAddr with
  | none => .returned (some ⟨remoteAddr ++ " does not connected to this server"⟩) t []
  | some x =>
    .returned none { t with remoteMap := t.remoteMap.Delete remoteAddr } [.cancel x]

/-- Method `Close` of `server`, the self-close of a connection from inside its
callback.  A send on the nil channel blocks forever, a send on a closed channel
panics, a send on a live channel completes once the consumer of `ErrChan()`
receives it. -/
def Close (t : server) : Outcome server Unit :=
  match t.currentConn with
  | none => .panicked t []
  | some conn =>
    let remoteAddr := conn.remoteAddr
    match t.remoteMap.Load remoteAddr with
    | none =>
      match t.eU with
      | .nil => .blocked t []
      | .closed => .panicked t []
      | .live => .returned () t [.sendEU ⟨⟨"internal error"⟩, t.ipaddr⟩]
    | some x =>
      .returned () { t with remoteMap := t.remoteMap.Delete remoteAddr } [.cancel x]

/-- Method `RangeRemoteAddr` of `server`. -/
def RangeRemoteAddr (t : server) : List String :=
  t.remoteMap.keys

/-! ## The accept loop -/

/-- The guarded error send of the accept loop and of the handlers:
`mu.Lock()` followed by a send on the local error queue `eC`.  `ptr` is the
pointer the caller locks through (nil panics) and the mutex it points to is the
one of the server `s`: on a held mutex the `Lock` blocks.  Once the mutex is
taken the event is sent on `eC`, and the function goes on with the mutex still
taken: the matching `Unlock` is not in `server.go` but in the diversion link
that receives from `eC` (`errDiversion`).  `link e` tells whether the link
releases the mutex after it has received `e`, which it does once it has passed
the event to the outward queue or has found the server closed; while nobody
receives from `ErrChan()` it does not. -/
def emit (link : Errsocket → Bool) (ptr : Option Bool) (s : server) (e : Errsocket) :
    Outcome server Unit :=
  match ptr with
  | none => .panicked s []
  | some _ =>
    match s.mu with
    | none => .panicked s []
    | some true => .blocked s []
    | some false => .returned () { s with mu := some (!link e) } [.lock, .sendEC e]

/-- The `hConnerServer` literal that `handleListen` builds for an accepted
socket. -/
def newHConnerServer (s : server) (conn : Conn) : hConnerServer :=
  { conn := conn, d := s.delimiter, readfunc := s.readfunc, mu := s.mu }

/-- One round of the accept loop of `handleListen` after `Accept` has returned
`conn`: deadlines, child scope, registry entry, diversion link, handler. -/
def acceptConn (s : server) (conn : Conn) (childfunc : CancelFunc) : server × List Act :=
  let rd : List Act := if s.readDDL ≠ 0 then [.setReadDeadline conn] else []
  let wd : List Act := if s.writeDDL ≠ 0 then [.setWriteDeadline conn] else []
  ({ s with remoteMap := s.remoteMap.Store conn.remoteAddr childfunc },
   rd ++ wd ++ [.withCancel childfunc, .goErrDiversion,
     .goHandleConnServer (newHConnerServer s conn)])

/-- What one round of the accept loop observes: the root scope is done, a
socket is accepted (with the cancel function of its child scope), or `Accept`
fails. -/
inductive AcceptEvent where
  | done
  | accepted (conn : Conn) (childfunc : CancelFunc)
  | failed (err : GoError)
deriving DecidableEq, Repr

/-- Function `handleListen`, along the rounds the environment provides.  With
no round left the loop waits in `Accept`. -/
def handleListen (link : Errsocket → Bool) : List AcceptEvent → server → Outcome server Unit
  | [], s => .blocked s []
  | .done :: _, s => .returned () s [.closeEC]
  | .failed err :: _, s =>
    match s.l with
    | none => .panicked s []
    | some _ =>
      match emit link s.mu s ⟨err, s.ipaddr⟩ with
      | .returned _ s1 acts => .returned () s1 (acts ++ [.closeEC])
      | .blocked s1 acts => .blocked s1 acts
      | .panicked s1 acts => .panicked s1 acts
  | .accepted conn childfunc :: rest, s =>
    match s.l with
    | none => .panicked s []
    | some _ =>
      let r := acceptConn s conn childfunc
      match handleListen link rest r.1 with
      | .returned v st tr => .returned v st (r.2 ++ tr)
      | .blocked st tr => .blocked st (r.2 ++ tr)
      | .panicked st tr => .panicked st (r.2 ++ tr)

/-! ## The per-connection handler -/

/-- Meaning of a `ServerReadFunc`: from the frame and the handle it is given
to the error it returns and the contents it leaves in the registry the handle
points to. -/
abbrev ServerReadFunc := Frame → server → Option GoError × SyncMap

/-- The `&server{...}` literal that `handleConnServer` passes to the callback:
four fields are set, every other field has its zero value. -/
def handle (h : hConnerServer) (s : server) : server :=
  { ipaddr := ""
    readDDL := 0
    writeDDL := 0
    delimiter := h.d
    readfunc := none
    remoteMap := s.remoteMap
    eU := Chan.nil
    closed := false
    mu := none
    pmu := none
    eDerfunc := false
    l := none
    cancelfunc := none
    currentConn := some h.conn
    additional := s.additional }

/-- The handoff queue `strReqChan` as the handler sees it: the frames the
reader still has to send, in order, and whether the reader has closed the
queue. -/
structure Handoff where
  pending : List Frame
  closed : Bool
deriving DecidableEq, Repr

/-- A receive on the handoff queue.  The queue is unbuffered: a frame the
reader has to hand off is received, and the queue stays open behind it.  When
the reader has nothing left it ends (end-of-stream, or a failed read once the
socket is closed) and closes the queue, which the receive observes. -/
def Handoff.recv (q : Handoff) : Option Frame × Handoff :=
  match q.pending with
  | f :: rest => (some f, { pending := rest, closed := q.closed })
  | [] => (none, { pending := [], closed := true })

/-- How the dispatch loop ends: it leaves on the cancellation, it leaves on
the closed queue, it stays blocked in a `Lock`, or it panics. -/
inductive LoopExit where
  | cancelled
  | queueClosed
  | blocked
  | panicked
deriving DecidableEq, Repr

/-- State at the end of the dispatch loop. -/
structure LoopEnd where
  exit : LoopExit
  q : Handoff
  s : server
  tr : List Act
deriving DecidableEq, Repr

/-- The `for { select { ... } }` loop of `handleConnServer`.  `cancelAt` is the
round in which the `select` takes `<-ctx.Done()`, if it ever does; in every
other round it receives from the handoff queue. -/
def dispatchLoop (code : FuncPtr → ServerReadFunc) (link : Errsocket → Bool)
    (h : hConnerServer) : List Frame → Option Nat → server → LoopEnd
  | pending, some 0, s => ⟨.cancelled, ⟨pending, false⟩, s, []⟩
  | [], _, s => ⟨.queueClosed, ⟨[], true⟩, s, [.recvHandoff none]⟩
  | strReq :: rest, cancelAt, s =>
    match h.readfunc with
    | none => ⟨.panicked, ⟨rest, false⟩, s, [.recvHandoff (some strReq)]⟩
    | some fp =>
      let hd := handle h s
      let r := code fp strReq hd
      let s1 := { s with remoteMap := r.2 }
      match r.1 with
      | none =>
        let e := dispatchLoop code link h rest (cancelAt.map Nat.pred) s1
        { e with tr := .recvHandoff (some strReq) :: .call strReq hd :: e.tr }
      | some err =>
        match emit link h.mu s1 ⟨err, h.conn.remoteAddr⟩ with
        | .panicked s2 acts =>
          ⟨.panicked, ⟨rest, false⟩, s2,
            .recvHandoff (some strReq) :: .call strReq hd :: acts⟩
        | .blocked s2 acts =>
          ⟨.blocked, ⟨rest, false⟩, s2,
            .recvHandoff (some strReq) :: .call strReq hd :: acts⟩
        | .returned _ s2 acts =>
          let e := dispatchLoop code link h rest (cancelAt.map Nat.pred) s2
          { e with tr := .recvHandoff (some strReq) :: .call strReq hd :: (acts ++ e.tr) }

/-- The deferred function of `handleConnServer`: close the socket, receive
once from the handoff queue, report a failed close, close `eC`. -/
def teardown (link : Errsocket → Bool) (h : hConnerServer) (connCloseErr : Option GoError)
    (s : server) (q : Handoff) : Outcome (server × Handoff) Unit :=
  let r := q.recv
  match connCloseErr with
  | none => .returned () (s, r.2) [.connClose h.conn, .recvHandoff r.1, .closeEC]
  | some err =>
    match emit link h.mu s ⟨err, h.conn.remoteAddr⟩ with
    | .panicked s1 acts =>
      .panicked (s1, r.2) (.connClose h.conn :: .recvHandoff r.1 :: acts)
    | .blocked s1 acts =>
      .blocked (s1, r.2) (.connClose h.conn :: .recvHandoff r.1 :: acts)
    | .returned _ s1 acts =>
      .returned () (s1, r.2) (.connClose h.conn :: .recvHandoff r.1 :: (acts ++ [.closeEC]))

/-- Function `handleConnServer`: start the reader, run the dispatch loop, then
the deferred teardown.  `frames` are the frames the reader hands off before it
closes the queue; `connCloseErr` is what `h.conn.Close()` answers. -/
def handleConnServer (code : FuncPtr → ServerReadFunc) (link : Errsocket → Bool)
    (h : hConnerServer) (s : server) (frames : List Frame) (cancelAt : Option Nat)
    (connCloseErr : Option GoError) : Outcome (server × Handoff) Unit :=
  let e := dispatchLoop code link h frames cancelAt s
  match e.exit with
  | .panicked => .panicked (e.s, e.q) (.goRead h.conn :: e.tr)
  | .blocked => .blocked (e.s, e.q) (.goRead h.conn :: e.tr)
  | _ =>
    match teardown link h connCloseErr e.s e.q with
    | .returned v st tr => .returned v st (.goRead h.conn :: (e.tr ++ tr))
    | .blocked st tr => .blocked st (.goRead h.conn :: (e.tr ++ tr))
    | .panicked st tr => .panicked st (.goRead h.conn :: (e.tr ++ tr))

/-- The callback invocations recorded in a trace. -/
def callsOf : List Act → List (Frame × server)
  | [] => []
  | .call f hd :: tr => (f, hd) :: callsOf tr
  | _ :: tr => callsOf tr

/-- The events sent on the local error queue recorded in a trace. -/
def sentEC : List Act → List Errsocket
  | [] => []
  | .sendEC e :: tr => e :: sentEC tr
  | _ :: tr => sentEC tr

/-- Whether the mutex is held once the actions of a trace have run. -/
def heldAfter : Bool → List Act → Bool
  | b, [] => b
  | _, .lock :: tr => heldAfter true tr
  | _, .unlock :: tr => heldAfter false tr
  | b, _ :: tr => heldAfter b tr

/-- Whether the mutex is held at the moment action `a` first occurs in a
trace; `none` when `a` does not occur. -/
def heldAt (a : Act) : Bool → List Act → Option Bool
  | _, [] => none
  | b, x :: tr =>
    if x = a then some b
    else heldAt a (match x with | .lock => true | .unlock => false | _ => b) tr

/-! ## Servers in service -/

/-- A server as the constructor leaves it, before `Listen`: `NewServer`
followed by any number of `SetDeadLine` calls. -/
inductive Created : server → Prop where
  | new (ipaddrsocket : String) (delim : Nat) (readfunc : Option FuncPtr) (additional : Any) :
      Created (NewServer ipaddrsocket delim readfunc additional)
  | setDeadLine {t : server} (rDDL wDDL : Int) : Created t → Created (SetDeadLine t rDDL wDDL)

/-- A server on which `Listen` has succeeded and which is in service: a
constructed server after a `Listen` that returned nil, then any number of
accepted connections, `CloseRemote` calls, `SetDeadLine` calls and registry
updates made by callbacks (self-close).  No `Cut` has run on it yet. -/
inductive Serving : server → Prop where
  | listen {env : ListenEnv} {t t1 : server} {tr : List Act} :
      Created t → Listen env t = .returned none t1 tr → Serving t1
  | setDeadLine {t : server} (rDDL wDDL : Int) : Serving t → Serving (SetDeadLine t rDDL wDDL)
  | accept {t : server} (conn : Conn) (childfunc : CancelFunc) :
      Serving t → Serving (acceptConn t conn childfunc).1
  | closeRemote {t : server} (remoteAddr : String) :
      Serving t → Serving (CloseRemote t remoteAddr).state
  | callback {t : server} (registry : SyncMap) :
      Serving t → Serving { t with remoteMap := registry }

/-- The fields `Cut` and the handlers depend on, for a server in service. -/
structure InService (t : server) : Prop where
  mu : t.mu = some false
  eU : t.eU = Chan.live
  closed : t.closed = false
  eDerfunc : t.eDerfunc = true
  l : t.l.isSome = true
  cancelfunc : t.cancelfunc.isSome = true
  readfunc : t.readfunc.isSome = true

/-- The example server used to instantiate the theorems: constructed on
`127.0.0.1:9000` with delimiter `10`, then `Listen` succeeded. -/
def exServer : server :=
  { NewServer "127.0.0.1:9000" 10 (some 7) 42 with
    l := some ⟨"127.0.0.1:9000"⟩, cancelfunc := some ⟨0⟩ }

/-- The example connection. -/
def exConn : Conn := ⟨"127.0.0.1:9000", "10.0.0.1:5000"⟩

/-- The example callback: it fails on the frame `[1]` and leaves the registry
as it finds it. -/
def exCode : FuncPtr → ServerReadFunc :=
  fun _ frame hd => (if frame = [1] then some ⟨"bad frame"⟩ else none, hd.remoteMap)

/-- The diversion link of a server whose outward stream is drained: it
releases the mutex after every event it receives. -/
def exLink : Errsocket → Bool := fun _ => true

/-- The diversion link of a server whose outward stream nobody reads: it waits
on the outward queue with the mutex taken. -/
def stuckLink : Errsocket → Bool := fun _ => false

/-- The handle the handler of connection `conn` on server `t` passes to the
callback when the shared registry holds `registry`. -/
def connHandle (t : server) (conn : Conn) (registry : SyncMap) : server :=
  handle (newHConnerServer t conn) { t with remoteMap := registry }

/-- The invocations the dispatch contract describes: one per frame, in the
order of the frames, each with the handle `mk registry` on the shared registry
as the earlier invocations left it. -/
def specCalls (run : ServerReadFunc) (mk : SyncMap → server) :
    List Frame → SyncMap → List (Frame × server)
  | [], _ => []
  | f :: rest, registry =>
    (f, mk registry) :: specCalls run mk rest (run f (mk registry)).2

/-- The error events the dispatch contract describes: one event
`(err, remoteAddr)` for each invocation that returns a non-nil `err`, in the
order of the invocations. -/
def specEvents (run : ServerReadFunc) (remoteAddr : String)
    (calls : List (Frame × server)) : List Errsocket :=
  calls.filterMap (fun c => (run c.1 c.2).1.map (fun err => ⟨err, remoteAddr⟩))

/-! ## Lemmas on the registry -/

theorem SyncMap.Load_eq_none_iff (m : SyncMap) (key : String) :
    m.Load key = none ↔ key ∉ m.keys := by
  induction m with
  | nil => simp [SyncMap.Load, SyncMap.keys]
  | cons e m ih =>
    simp only [SyncMap.Load, SyncMap.keys] at ih ⊢
    rw [List.find?_cons, List.map_cons, List.mem_cons, not_or]
    by_cases hk : e.1 = key
    · have hb : (e.1 == key) = true := by simpa using hk
      simp [hb, hk]
    · have hb : (e.1 == key) = false := by simpa using hk
      have hne : ¬ key = e.1 := fun h => hk h.symm
      simp only [hb, hne, not_false_eq_true, true_and]
      exact ih

theorem SyncMap.mem_keys_of_Load {m : SyncMap} {key : String} {x : CancelFunc}
    (h : m.Load key = some x) : key ∈ m.keys := by
  by_contra hn
  rw [← SyncMap.Load_eq_none_iff] at hn
  rw [hn] at h
  cases h

theorem SyncMap.Load_isSome_iff (m : SyncMap) (key : String) :
    (m.Load key).isSome = true ↔ key ∈ m.keys := by
  rw [← not_iff_not, ← SyncMap.Load_eq_none_iff]
  cases m.Load key <;> simp

theorem SyncMap.not_mem_keys_Delete (m : SyncMap) (key : String) :
    key ∉ (m.Delete key).keys := by
  simp [SyncMap.Delete, SyncMap.keys]

theorem SyncMap.Load_Delete_self (m : SyncMap) (key : String) :
    (m.Delete key).Load key = none :=
  (SyncMap.Load_eq_none_iff _ _).2 (SyncMap.not_mem_keys_Delete m key)

theorem SyncMap.Load_Delete_of_ne (m : SyncMap) {key other : String} (h : other ≠ key) :
    (m.Delete key).Load other = m.Load other := by
  induction m with
  | nil => simp [SyncMap.Delete, SyncMap.Load]
  | cons e m ih =>
    simp only [SyncMap.Delete, SyncMap.Load] at ih ⊢
    rw [List.filter_cons, List.find?_cons]
    by_cases hk : e.1 = key
    · have hb : (e.1 == key) = true := by simpa using hk
      have ho : (e.1 == other) = false := by
        simpa using fun h2 : e.1 = other => h (h2.symm.trans hk)
      simp only [hb, ho, Bool.not_true, Bool.false_eq_true, if_false]
      exact ih
    · have hb : (e.1 == key) = false := by simpa using hk
      simp only [hb, Bool.not_false, if_true]
      rw [List.find?_cons]
      cases ho : (e.1 == other) with
      | true => rfl
      | false => exact ih

theorem SyncMap.Load_Store_self (m : SyncMap) (key : String) (value : CancelFunc) :
    (m.Store key value).Load key = some value := by
  simp [SyncMap.Store, SyncMap.Load, List.find?]

/-! ## Lemmas on servers in service -/

theorem Created.fields {t : server} (h : Created t) :
    t.mu = some false ∧ t.eU = Chan.live ∧ t.closed = false ∧ t.eDerfunc = true := by
  induction h with
  | new => simp [NewServer]
  | setDeadLine _ _ _ ih => simpa [SetDeadLine] using ih

theorem Serving.inService {t : server} (h : Serving t) : InService t := by
  induction h with
  | @listen env t t1 tr hc hl =>
    obtain ⟨h1, h2, h3, h4⟩ := hc.fields
    unfold Listen at hl
    cases hr : t.readfunc with
    | none => simp [hr] at hl
    | some fp =>
      cases hb : env.bind with
      | error err => simp [hr, hb] at hl
      | ok listener =>
        simp only [hr, hb, h4, if_true, Outcome.returned.injEq, true_and] at hl
        obtain ⟨rfl, -⟩ := hl
        exact ⟨h1, h2, h3, rfl, rfl, rfl, rfl⟩
  | setDeadLine _ _ _ ih =>
    exact ⟨ih.mu, ih.eU, ih.closed, ih.eDerfunc, ih.l, ih.cancelfunc, ih.readfunc⟩
  | accept _ _ _ ih =>
    exact ⟨ih.mu, ih.eU, ih.closed, ih.eDerfunc, ih.l, ih.cancelfunc, ih.readfunc⟩
  | @closeRemote t remoteAddr _ ih =>
    unfold CloseRemote
    cases t.remoteMap.Load remoteAddr with
    | none => exact ih
    | some x => exact ⟨ih.mu, ih.eU, ih.closed, ih.eDerfunc, ih.l, ih.cancelfunc, ih.readfunc⟩
  | callback _ _ ih =>
    exact ⟨ih.mu, ih.eU, ih.closed, ih.eDerfunc, ih.l, ih.cancelfunc, ih.readfunc⟩

theorem exServer_serving : Serving exServer :=
  @Serving.listen ⟨.ok ⟨"127.0.0.1:9000"⟩, ⟨0⟩⟩ _ _ _
    (Created.new "127.0.0.1:9000" 10 (some 7) 42) rfl

/-! ## Helper lemmas on `Cut` -/

theorem Cut_close_ok {t : server} {lst : Listener} {cf : CancelFunc}
    (hmu : t.mu = some false) (hl : t.l = some lst) (heU : t.eU = Chan.live)
    (hc : t.cancelfunc = some cf) :
    Cut none t = .returned none { t with closed := true, eU := Chan.closed }
      [.lock, .listenerClose lst, .setClosed, .closeEU, .unlock, .cancel cf] := by
  cases t
  simp only at hmu hl heU hc
  subst hmu hl heU hc
  rfl

theorem Cut_close_err {t : server} {lst : Listener} (e : GoError)
    (hmu : t.mu = some false) (hl : t.l = some lst) :
    Cut (some e) t = .returned (some e) { t with mu := some true }
      [.lock, .listenerClose lst] := by
  simp only [Cut, hmu, hl]

/-- After a `Cut` whose socket close failed the mutex is held, and any further
`Cut` blocks on its `Lock`. -/
theorem Cut_after_failed_Cut {t : server} {lst : Listener} (e : GoError)
    (closeErr : Option GoError) (hmu : t.mu = some false) (hl : t.l = some lst) :
    (Cut (some e) t).state.mu = some true ∧
    Cut closeErr (Cut (some e) t).state = .blocked (Cut (some e) t).state [] := by
  rw [Cut_close_err e hmu hl]
  simp [Outcome.state, Cut]

/-! ## Helper lemmas on the accept loop, `Close` and the teardown -/

/-- One accepted socket followed by the end of the root scope: the accept loop
returns with the state `acceptConn` leaves. -/
theorem handleListen_accept_done (link : Errsocket → Bool) (s : server) (lst : Listener)
    (conn : Conn) (childfunc : CancelFunc) (hl : s.l = some lst) :
    handleListen link [.accepted conn childfunc, .done] s
      = .returned () (acceptConn s conn childfunc).1
          ((acceptConn s conn childfunc).2 ++ [.closeEC]) := by
  simp [handleListen, hl, acceptConn]

/-- Every handle built by the handler has a nil outward queue: a self-close
that misses its registry entry blocks on the send. -/
theorem Close_handle_absent (h : hConnerServer) (s : server)
    (habs : s.remoteMap.Load h.conn.remoteAddr = none) :
    Close (handle h s) = .blocked (handle h s) [] := by
  simp [Close, handle, habs]

/-- On the long-lived server, whose outward queue is live, the same miss sends
the "internal error" event, tagged with the bind address. -/
theorem Close_server_absent (t : server) (conn : Conn)
    (hc : t.currentConn = some conn) (heU : t.eU = Chan.live)
    (habs : t.remoteMap.Load conn.remoteAddr = none) :
    Close t = .returned () t [.sendEU ⟨⟨"internal error"⟩, t.ipaddr⟩] := by
  simp [Close, hc, heU, habs]

/-- The teardown receives exactly once: with a frame pending it takes that
frame and leaves the queue open behind it. -/
theorem teardown_pending (link : Errsocket → Bool) (h : hConnerServer) (s : server)
    (f : Frame) (rest : List Frame) :
    teardown link h none s ⟨f :: rest, false⟩
      = .returned () (s, ⟨rest, false⟩)
          [.connClose h.conn, .recvHandoff (some f), .closeEC] := rfl

/-- With no frame pending the receive of the teardown observes the close of
the queue. -/
theorem teardown_drained (link : Errsocket → Bool) (h : hConnerServer) (s : server)
    (b : Bool) :
    teardown link h none s ⟨[], b⟩
      = .returned () (s, ⟨[], true⟩) [.connClose h.conn, .recvHandoff none, .closeEC] := rfl

/-- A guarded send on a held mutex blocks in its `Lock`: nothing is sent. -/
theorem emit_held (link : Errsocket → Bool) (b : Bool) (s : server) (e : Errsocket)
    (hmu : s.mu = some true) :
    emit link (some b) s e = .blocked s [] := by
  simp [emit, hmu]

/-- A guarded send on a free mutex takes it and sends; the mutex is free again
afterwards exactly when the link releases it. -/
theorem emit_free (link : Errsocket → Bool) (b : Bool) (s : server) (e : Errsocket)
    (hmu : s.mu = some false) :
    emit link (some b) s e
      = .returned () { s with mu := some (!link e) } [.lock, .sendEC e] := by
  simp [emit, hmu]

/-! ## The claims -/

/-- C1: on a server on which `Listen` has succeeded (listening socket `lst`
and root cancel function `cf` are set), whose outward error queue is open and
whose mutex is free when `Cut` takes it, a `Cut` whose socket close succeeds
returns nil; afterwards the closed flag is true, the outward error queue is
closed and `cf` has been invoked.  In the order of the actions, the flag is set
and the queue is closed while the mutex is held, and `cf` is invoked after the
mutex has been released. -/
theorem Cut_success (t : server) (lst : Listener) (cf : CancelFunc)
    (hl : t.l = some lst) (hc : t.cancelfunc = some cf)
    (hmu : t.mu = some false) (heU : t.eU = Chan.live) :
    Cut none t = .returned none { t with closed := true, eU := Chan.closed }
      [.lock, .listenerClose lst, .setClosed, .closeEU, .unlock, .cancel cf] ∧
    (Cut none t).state.closed = true ∧
    (Cut none t).state.eU = Chan.closed ∧
    Act.cancel cf ∈ (Cut none t).trace ∧
    heldAt .setClosed false (Cut none t).trace = some true ∧
    heldAt .closeEU false (Cut none t).trace = some true ∧
    heldAt (.cancel cf) false (Cut none t).trace = some false ∧
    heldAfter false (Cut none t).trace = false := by
  rw [Cut_close_ok hmu hl heU hc]
  simp [Outcome.state, Outcome.trace, heldAt, heldAfter]

theorem Cut_success_witness :
    exServer.l = some ⟨"127.0.0.1:9000"⟩ ∧ exServer.cancelfunc = some ⟨0⟩ ∧
    exServer.mu = some false ∧ exServer.eU = Chan.live ∧
    (Cut none exServer).state.closed = true ∧
    (Cut none exServer).state.eU = Chan.closed ∧
    heldAt (.cancel ⟨0⟩) false (Cut none exServer).trace = some false :=
  have h := Cut_success exServer ⟨"127.0.0.1:9000"⟩ ⟨0⟩ rfl rfl rfl rfl
  ⟨rfl, rfl, rfl, rfl, h.2.1, h.2.2.1, h.2.2.2.2.2.2.1⟩

/-- C2: on a server on which `Listen` has succeeded (listening socket `lst`
is set) and whose mutex is free when `Cut` takes it, a `Cut` whose socket close
fails with `e` returns exactly `e` and does nothing further: the closed flag
and the outward error queue are as before, and the trace holds neither the
setting of the flag, nor the closing of the queue, nor any cancellation. -/
theorem Cut_failure (t : server) (lst : Listener) (e : GoError)
    (hl : t.l = some lst) (hmu : t.mu = some false) :
    Cut (some e) t = .returned (some e) { t with mu := some true }
      [.lock, .listenerClose lst] ∧
    (Cut (some e) t).state.closed = t.closed ∧
    (Cut (some e) t).state.eU = t.eU ∧
    (Cut (some e) t).state.cancelfunc = t.cancelfunc ∧
    (Cut (some e) t).state.remoteMap = t.remoteMap ∧
    Act.setClosed ∉ (Cut (some e) t).trace ∧
    Act.closeEU ∉ (Cut (some e) t).trace ∧
    ∀ f : CancelFunc, Act.cancel f ∉ (Cut (some e) t).trace := by
  rw [Cut_close_err e hmu hl]
  simp [Outcome.state, Outcome.trace]

theorem Cut_failure_witness :
    exServer.l = some ⟨"127.0.0.1:9000"⟩ ∧ exServer.mu = some false ∧
    Cut (some ⟨"close failed"⟩) exServer
      = .returned (some ⟨"close failed"⟩) { exServer with mu := some true }
          [.lock, .listenerClose ⟨"127.0.0.1:9000"⟩] :=
  ⟨rfl, rfl, (Cut_failure exServer ⟨"127.0.0.1:9000"⟩ ⟨"close failed"⟩ rfl rfl).1⟩

/-- C3: for every registry and every address that `RangeRemoteAddr()` does not
return, `CloseRemote` returns the error `addr + " does not connected to this
server"`, invokes no cancel function (its trace is empty) and leaves the
server, hence the registry and what `RangeRemoteAddr()` returns, unchanged. -/
theorem CloseRemote_absent (t : server) (addr : String)
    (h : addr ∉ RangeRemoteAddr t) :
    CloseRemote t addr
      = .returned (some ⟨addr ++ " does not connected to this server"⟩) t [] ∧
    (CloseRemote t addr).trace = [] ∧
    (CloseRemote t addr).state.remoteMap = t.remoteMap ∧
    RangeRemoteAddr (CloseRemote t addr).state = RangeRemoteAddr t := by
  have hload : t.remoteMap.Load addr = none := (SyncMap.Load_eq_none_iff _ _).2 h
  simp [CloseRemote, hload, Outcome.state, Outcome.trace]

theorem CloseRemote_absent_witness :
    "10.0.0.9:1" ∉ RangeRemoteAddr (acceptConn exServer exConn ⟨1⟩).1 ∧
    CloseRemote (acceptConn exServer exConn ⟨1⟩).1 "10.0.0.9:1"
      = .returned (some ⟨"10.0.0.9:1 does not connected to this server"⟩)
          (acceptConn exServer exConn ⟨1⟩).1 [] :=
  ⟨by decide, (CloseRemote_absent (acceptConn exServer exConn ⟨1⟩).1 "10.0.0.9:1"
    (by decide)).1⟩

/-- C4: for every registry and every address `addr` under which a cancel
function `x` is stored, `CloseRemote` returns nil, invokes `x` and nothing
else, and removes exactly the entry of `addr`: afterwards `addr` is absent,
every other address maps to what it mapped to before, and no other field of
the server has changed. -/
theorem CloseRemote_present (t : server) (addr : String) (x : CancelFunc)
    (h : t.remoteMap.Load addr = some x) :
    addr ∈ RangeRemoteAddr t ∧
    CloseRemote t addr
      = .returned none { t with remoteMap := t.remoteMap.Delete addr } [.cancel x] ∧
    (CloseRemote t addr).trace = [.cancel x] ∧
    (CloseRemote t addr).state.remoteMap.Load addr = none ∧
    addr ∉ RangeRemoteAddr (CloseRemote t addr).state ∧
    ∀ other : String, other ≠ addr →
      (CloseRemote t addr).state.remoteMap.Load other = t.remoteMap.Load other := by
  refine ⟨SyncMap.mem_keys_of_Load h, ?_, ?_, ?_, ?_, ?_⟩
  · simp [CloseRemote, h]
  · simp [CloseRemote, h, Outcome.trace]
  · simp only [CloseRemote, h, Outcome.state]
    exact SyncMap.Load_Delete_self _ _
  · simp only [CloseRemote, h, Outcome.state, RangeRemoteAddr]
    exact SyncMap.not_mem_keys_Delete _ _
  · intro other hne
    simp only [CloseRemote, h, Outcome.state]
    exact SyncMap.Load_Delete_of_ne _ hne

theorem CloseRemote_present_witness :
    (acceptConn exServer exConn ⟨1⟩).1.remoteMap.Load "10.0.0.1:5000" = some ⟨1⟩ ∧
    (CloseRemote (acceptConn exServer exConn ⟨1⟩).1 "10.0.0.1:5000").trace = [.cancel ⟨1⟩] ∧
    "10.0.0.1:5000" ∉
      RangeRemoteAddr (CloseRemote (acceptConn exServer exConn ⟨1⟩).1 "10.0.0.1:5000").state :=
  have h := CloseRemote_present (acceptConn exServer exConn ⟨1⟩).1 "10.0.0.1:5000" ⟨1⟩
    (by decide)
  ⟨by decide, h.2.2.1, h.2.2.2.2.1⟩

/-- C5: on every server whose read callback is nil, `Listen` returns the error
"read function is nil" at once: nothing is performed (no bind, no accept loop,
no diversion link: the trace is empty) and the server is left exactly as it
was, so an unset listening socket and an unset root cancel function stay
unset. -/
theorem Listen_nil_readfunc (env : ListenEnv) (t : server) (h : t.readfunc = none) :
    Listen env t = .returned (some ⟨"read function is nil"⟩) t [] ∧
    (Listen env t).trace = [] ∧
    (Listen env t).state = t ∧
    (t.l = none → (Listen env t).state.l = none) ∧
    (t.cancelfunc = none → (Listen env t).state.cancelfunc = none) := by
  simp [Listen, h, Outcome.state, Outcome.trace]

theorem Listen_nil_readfunc_witness :
    (NewServer "127.0.0.1:9000" 10 none 42).readfunc = none ∧
    Listen ⟨.ok ⟨"127.0.0.1:9000"⟩, ⟨0⟩⟩ (NewServer "127.0.0.1:9000" 10 none 42)
      = .returned (some ⟨"read function is nil"⟩) (NewServer "127.0.0.1:9000" 10 none 42) [] ∧
    (Listen ⟨.ok ⟨"127.0.0.1:9000"⟩, ⟨0⟩⟩ (NewServer "127.0.0.1:9000" 10 none 42)).state.l
      = none :=
  have h := Listen_nil_readfunc ⟨.ok ⟨"127.0.0.1:9000"⟩, ⟨0⟩⟩
    (NewServer "127.0.0.1:9000" 10 none 42) rfl
  ⟨rfl, h.1, h.2.2.2.1 rfl⟩

/-! ## Helper lemmas on the handler -/

theorem callsOf_cons_call (f : Frame) (hd : server) (tr : List Act) :
    callsOf (.call f hd :: tr) = (f, hd) :: callsOf tr := rfl

theorem handle_eq_connHandle (t s : server) (conn : Conn)
    (hadd : s.additional = t.additional) :
    handle (newHConnerServer t conn) s = connHandle t conn s.remoteMap := by
  simp [handle, connHandle, newHConnerServer, hadd]

/-- Without cancellation, from a free mutex that the link releases after each
event, the loop dispatches every frame and ends on the closed queue. -/
theorem dispatchLoop_none (code : FuncPtr → ServerReadFunc) (link : Errsocket → Bool)
    (t : server) (conn : Conn) (fp : FuncPtr)
    (hfp : t.readfunc = some fp) (hmu : t.mu = some false)
    (hlink : ∀ e : Errsocket, link e = true) (frames : List Frame) :
    ∀ s : server, s.additional = t.additional → s.mu = some false →
      (dispatchLoop code link (newHConnerServer t conn) frames none s).exit = .queueClosed ∧
      (dispatchLoop code link (newHConnerServer t conn) frames none s).q = ⟨[], true⟩ ∧
      callsOf (dispatchLoop code link (newHConnerServer t conn) frames none s).tr
        = specCalls (code fp) (connHandle t conn) frames s.remoteMap ∧
      sentEC (dispatchLoop code link (newHConnerServer t conn) frames none s).tr
        = specEvents (code fp) conn.remoteAddr
            (specCalls (code fp) (connHandle t conn) frames s.remoteMap) := by
  induction frames with
  | nil =>
    intro s _ _
    simp [dispatchLoop, callsOf, sentEC, specCalls, specEvents]
  | cons f rest ih =>
    intro s hadd hsmu
    have hh := handle_eq_connHandle t s conn hadd
    have hrf : (newHConnerServer t conn).readfunc = some fp := hfp
    have hm : (newHConnerServer t conn).mu = some false := hmu
    have hc : (newHConnerServer t conn).conn = conn := rfl
    cases hr : (code fp f (connHandle t conn s.remoteMap)).1 with
    | none =>
      obtain ⟨h1, h2, h3, h4⟩ :=
        ih { s with remoteMap := (code fp f (connHandle t conn s.remoteMap)).2 } hadd hsmu
      simp only [dispatchLoop, hrf, hh, hr, Option.map_none']
      refine ⟨h1, h2, ?_, ?_⟩
      · simp only [callsOf, specCalls]
        rw [h3]
      · simp only [sentEC, specCalls, specEvents, List.filterMap_cons, hr, Option.map_none']
        rw [h4]
        rfl
    | some err =>
      obtain ⟨h1, h2, h3, h4⟩ :=
        ih { s with remoteMap := (code fp f (connHandle t conn s.remoteMap)).2,
                    mu := some false } hadd rfl
      simp only [dispatchLoop, hrf, hh, hr, hm, hc, hsmu, hlink, emit, Bool.not_true,
        Option.map_none', List.cons_append, List.nil_append]
      refine ⟨h1, h2, ?_, ?_⟩
      · simp only [callsOf, specCalls]
        rw [h3]
      · simp only [sentEC, specCalls, specEvents, List.filterMap_cons, hr, Option.map_some']
        rw [h4]
        rfl

theorem specCalls_frames (run : ServerReadFunc) (mk : SyncMap → server) (frames : List Frame) :
    ∀ registry : SyncMap, (specCalls run mk frames registry).map Prod.fst = frames := by
  induction frames with
  | nil => intro _; rfl
  | cons f rest ih =>
    intro registry
    simp [specCalls, ih]

/-- C6, as stated, fails.  First run: nobody receives from the outward stream,
so the link that took the first event keeps the mutex; the callback fails on
the first two frames `[1]`, `[1]` and the second failure waits in `Lock`: its
event is never sent and the frame `[2]` is never dispatched.  Second run: the
mutex is already taken when the loop starts; the first failing invocation
waits in `Lock`, no event is sent and `[2]` is never dispatched. -/
theorem dispatchLoop_stalls_in_Lock :
    (dispatchLoop exCode stuckLink (newHConnerServer exServer exConn)
      [[1], [1], [2]] none exServer).exit = .blocked ∧
    (callsOf (dispatchLoop exCode stuckLink (newHConnerServer exServer exConn)
      [[1], [1], [2]] none exServer).tr).map Prod.fst = [[1], [1]] ∧
    sentEC (dispatchLoop exCode stuckLink (newHConnerServer exServer exConn)
      [[1], [1], [2]] none exServer).tr = [⟨⟨"bad frame"⟩, "10.0.0.1:5000"⟩] ∧
    (dispatchLoop exCode exLink (newHConnerServer exServer exConn)
      [[1], [2]] none { exServer with mu := some true }).exit = .blocked ∧
    (callsOf (dispatchLoop exCode exLink (newHConnerServer exServer exConn)
      [[1], [2]] none { exServer with mu := some true }).tr).map Prod.fst = [[1]] ∧
    sentEC (dispatchLoop exCode exLink (newHConnerServer exServer exConn)
      [[1], [2]] none { exServer with mu := some true }).tr = [] := by
  decide

/-- C6, amended: for the handler of a connection `conn` accepted on a server
`t` whose read callback is set, whose mutex is free when the loop starts and
whose diversion link releases the mutex after each event it receives, and for
every finite sequence of frames followed by the closing of the handoff queue,
with no cancellation, the dispatch loop ends on the closed queue after it has
invoked the callback once per frame, in the order of the frames, each time with
a handle that carries the socket `conn`, the delimiter of `t`, the shared
registry as it then stands and the additional value of `t`; the events it
sends on the local error queue are exactly one `(err, remote address of conn)`
per invocation that returned a non-nil `err`, in invocation order.  A failing
invocation does not stop the dispatch: the frames of the invocations are all
the frames. -/
theorem dispatchLoop_in_order (code : FuncPtr → ServerReadFunc) (link : Errsocket → Bool)
    (t : server) (conn : Conn) (fp : FuncPtr) (frames : List Frame)
    (hfp : t.readfunc = some fp) (hmu : t.mu = some false)
    (hlink : ∀ e : Errsocket, link e = true) :
    (dispatchLoop code link (newHConnerServer t conn) frames none t).exit = .queueClosed ∧
    callsOf (dispatchLoop code link (newHConnerServer t conn) frames none t).tr
      = specCalls (code fp) (connHandle t conn) frames t.remoteMap ∧
    (callsOf (dispatchLoop code link (newHConnerServer t conn) frames none t).tr).map
      Prod.fst = frames ∧
    (∀ registry : SyncMap,
      (connHandle t conn registry).currentConn = some conn ∧
      (connHandle t conn registry).delimiter = t.delimiter ∧
      (connHandle t conn registry).remoteMap = registry ∧
      (connHandle t conn registry).additional = t.additional) ∧
    sentEC (dispatchLoop code link (newHConnerServer t conn) frames none t).tr
      = specEvents (code fp) conn.remoteAddr
          (callsOf (dispatchLoop code link (newHConnerServer t conn) frames none t).tr) := by
  obtain ⟨h1, -, h3, h4⟩ := dispatchLoop_none code link t conn fp hfp hmu hlink frames t rfl hmu
  refine ⟨h1, h3, ?_, ?_, ?_⟩
  · rw [h3]
    exact specCalls_frames _ _ _ _
  · intro registry
    exact ⟨rfl, rfl, rfl, rfl⟩
  · rw [h3]
    exact h4

theorem dispatchLoop_in_order_witness :
    exServer.readfunc = some 7 ∧ exServer.mu = some false ∧
    (∀ e : Errsocket, exLink e = true) ∧
    (dispatchLoop exCode exLink (newHConnerServer exServer exConn)
      [[1], [2], [1]] none exServer).exit = .queueClosed ∧
    (callsOf (dispatchLoop exCode exLink (newHConnerServer exServer exConn)
      [[1], [2], [1]] none exServer).tr).map Prod.fst = [[1], [2], [1]] ∧
    sentEC (dispatchLoop exCode exLink (newHConnerServer exServer exConn)
      [[1], [2], [1]] none exServer).tr
      = specEvents (exCode 7) exConn.remoteAddr
          (callsOf (dispatchLoop exCode exLink (newHConnerServer exServer exConn)
            [[1], [2], [1]] none exServer).tr) :=
  have h := dispatchLoop_in_order exCode exLink exServer exConn 7 [[1], [2], [1]] rfl rfl
    (fun _ => rfl)
  ⟨rfl, rfl, fun _ => rfl, h.1, h.2.2.1, h.2.2.2.2⟩

/-- C7, on the code: the connection `exConn` is accepted on `exServer` and its
handler runs to its end through end-of-stream (no frame, queue closed): the
handler returns and the remote address of `exConn` is still returned by
`RangeRemoteAddr()`.  The same holds when the handler ends through the
cancellation that a successful `Cut` cascades: `Cut` leaves the entry in place
and so does the handler. -/
theorem handler_end_keeps_address :
    (handleConnServer exCode exLink (newHConnerServer exServer exConn)
      (acceptConn exServer exConn ⟨1⟩).1 [] none none).isReturned = true ∧
    exConn.remoteAddr ∈ RangeRemoteAddr (handleConnServer exCode exLink
      (newHConnerServer exServer exConn) (acceptConn exServer exConn ⟨1⟩).1
      [] none none).state.1 ∧
    (Cut none (acceptConn exServer exConn ⟨1⟩).1).isReturned = true ∧
    (handleConnServer exCode exLink (newHConnerServer exServer exConn)
      (Cut none (acceptConn exServer exConn ⟨1⟩).1).state [] (some 0) none).isReturned
      = true ∧
    exConn.remoteAddr ∈ RangeRemoteAddr (handleConnServer exCode exLink
      (newHConnerServer exServer exConn) (Cut none (acceptConn exServer exConn ⟨1⟩).1).state
      [] (some 0) none).state.1 := by
  decide

/-- C8, on the code: the handle that `handleConnServer` builds for `exConn`
has a nil outward queue, so when the address of `exConn` is absent from the
registry the send of the "internal error" event blocks forever: `Close` never
returns and no event is emitted. -/
theorem Close_on_handle_blocks :
    (handle (newHConnerServer exServer exConn) exServer).remoteMap.Load
      exConn.remoteAddr = none ∧
    (handle (newHConnerServer exServer exConn) exServer).eU = Chan.nil ∧
    Close (handle (newHConnerServer exServer exConn) exServer)
      = .blocked (handle (newHConnerServer exServer exConn) exServer) [] := by
  decide

/-- C9, on the code: the handler of `exConn` is cancelled in its first round
while the reader still has the two frames `[2]` and `[3]` to hand off.  The
teardown closes the socket and receives once: it takes `[2]`, closes `eC` and
the handler finishes, with the handoff queue still open and the reader left
with `[3]` to send to nobody. -/
theorem teardown_receives_once :
    handleConnServer exCode exLink (newHConnerServer exServer exConn)
      (acceptConn exServer exConn ⟨1⟩).1 [[2], [3]] (some 0) none
      = .returned () ((acceptConn exServer exConn ⟨1⟩).1,
          { pending := [[3]], closed := false })
          [.goRead exConn, .connClose exConn, .recvHandoff (some [2]), .closeEC] := by
  decide

/-- C10, on the code: on `exServer` a `Cut` whose socket close fails returns
the error with the mutex still held, and the next `Cut` blocks on its `Lock`. -/
theorem failed_Cut_keeps_lock :
    Cut (some ⟨"close failed"⟩) exServer
      = .returned (some ⟨"close failed"⟩) { exServer with mu := some true }
          [.lock, .listenerClose ⟨"127.0.0.1:9000"⟩] ∧
    heldAfter false (Cut (some ⟨"close failed"⟩) exServer).trace = true ∧
    (Cut (some ⟨"close failed"⟩) exServer).state.mu = some true ∧
    Cut none (Cut (some ⟨"close failed"⟩) exServer).state
      = .blocked (Cut (some ⟨"close failed"⟩) exServer).state [] := by
  decide

end Chitchat
